import Mathlib

/-!
Verification development for the apiguardian repository (an AWS API Gateway
security auditor).  Python strings are embedded as `List Char`; Python
dictionaries appearing as JSON-like records become Lean structures; the remote
AWS API is modelled as a `World` of oracles returning `Option` values (a `none`
models a failed/empty remote call, matching the source's `None` returns).

Each definition is a direct translation of the function of the same name in
`src/apiguardian.py` or `src/security_check/api_filter.py`.
-/

set_option maxRecDepth 10000

/-- Embedding of Python strings. -/
abbrev Str := List Char

/-- Convert a Lean string literal to the `List Char` embedding. -/
def chars (s : String) : Str := s.data

/-- Python truthiness of an optional string (`None` and `""` are falsy). -/
def truthyStr : Option Str → Bool
  | some s => !s.isEmpty
  | none => false

/-- Python `x or d` on an optional string: the default replaces falsy values. -/
def orElseStr (o : Option Str) (d : Str) : Str :=
  match o with
  | some s => if s.isEmpty then d else s
  | none => d

/-- Python `needle in hay` substring test (used for the admin/customer
name heuristic). -/
def containsSub (needle : Str) : Str → Bool
  | [] => needle.isEmpty
  | a :: t => needle.isPrefixOf (a :: t) || containsSub needle t

/-- Split a pattern string on the character `'*'`
(Python `pattern.split('*')`, implicit in the regex construction at
apiguardian.py line 676: the chunks between stars are the literal parts). -/
def splitOnStar : Str → List Str
  | [] => [[]]
  | c :: t =>
    if c = '*' then [] :: splitOnStar t
    else
      match splitOnStar t with
      | [] => [[c]]
      | h :: r => (c :: h) :: r

/-- Rebuild a pattern from its star-separated chunks. -/
def intercalateStar : List Str → Str
  | [] => []
  | [c] => c
  | c :: cs => c ++ '*' :: intercalateStar cs

/-- All decompositions `s = w ++ rest` with `w` nonempty. -/
def wildSplits : Str → List (Str × Str)
  | [] => []
  | a :: t => ([a], t) :: (wildSplits t).map (fun p => (a :: p.1, p.2))

/-- Modelled from the spec (§4.1 rule 4 of spec.md): each `'*'` of the
pattern must be matched by a nonempty run of non-`'/'` characters while the
chunks between stars match literally, anchored at both ends.  This is the
spec's described semantics, stated to be compared with the source's actual
regex semantics (`reMatchFull` below). -/
def matchStars : List Str → Str → Bool
  | [], _ => false
  | [c], s => s == c
  | c :: c' :: cs, s =>
    c.isPrefixOf s &&
      (wildSplits (s.drop c.length)).any
        (fun p => !(p.1.contains '/') && matchStars (c' :: cs) p.2)

/-- One token of the regex built at apiguardian.py line 676: a literal
character, a live `'.'` (any character except newline), or the `[^/]+`
produced from a `'*'` of the pattern. -/
inductive RTok where
  | lit (c : Char)
  | dot
  | starSeg
deriving DecidableEq

/-- Python-regex metacharacters (outside character classes) other than the
two the embedding interprets (`'*'` is replaced by the source before the
regex engine sees it, `'.'` is modelled by `RTok.dot`).  A pattern containing
any of these is outside the modelled regex subset. -/
def METACHARS : List Char :=
  ['\\', '^', '$', '+', '?', '\x7b', '\x7d', '[', ']', '|', '(', ')']

/-- Tokenize a whitelist pattern the way `pattern.replace('*', '[^/]+')`
followed by regex compilation reads it (apiguardian.py line 676): `'*'`
becomes the `[^/]+` wildcard, `'.'` stays a live any-character metacharacter,
plain characters are literals.  Patterns containing further regex
metacharacters are outside the modelled subset and yield `none`. -/
def regexTokens : Str → Option (List RTok)
  | [] => some []
  | c :: t =>
    if c = '*' then (regexTokens t).map (fun ts => RTok.starSeg :: ts)
    else if c = '.' then (regexTokens t).map (fun ts => RTok.dot :: ts)
    else if c ∈ METACHARS then none
    else (regexTokens t).map (fun ts => RTok.lit c :: ts)

/-- Matching of a token list against an entire string: a literal consumes an
equal character, `'.'` consumes any character except `'\n'`, and `[^/]+`
consumes a nonempty run free of `'/'` (which may contain newlines, as the
negated class does). -/
def matchTokens : List RTok → Str → Bool
  | [], s => s.isEmpty
  | RTok.lit c :: ts, s =>
    match s with
    | [] => false
    | a :: s' => a == c && matchTokens ts s'
  | RTok.dot :: ts, s =>
    match s with
    | [] => false
    | a :: s' => !(a == '\n') && matchTokens ts s'
  | RTok.starSeg :: ts, s =>
    (wildSplits s).any (fun p => !(p.1.contains '/') && matchTokens ts p.2)

/-- `re.match` of the anchored regex `^...$` (apiguardian.py lines 677-678):
Python's `$` matches at the end of the string or just before a newline at
the end of the string, so the whole string matches, or the string minus one
trailing newline matches. -/
def reMatchFull (ts : List RTok) (s : Str) : Bool :=
  matchTokens ts s ||
    (match s.getLast? with
     | some c => c == '\n' && matchTokens ts s.dropLast
     | none => false)

/-- The pattern-versus-path test shared by both whitelist entry formats
(apiguardian.py lines 659-679): exact equality, then the trailing-`/*`
prefix rule, then the positional-wildcard regex rule.  The regex branch is
modelled through `regexTokens`; a pattern containing regex constructs
outside the modelled subset is outside the embedding's domain and the
branch conservatively answers `false` there — every theorem about this
branch assumes the pattern tokenizes. -/
def matchPattern (pat path : Str) : Bool :=
  if path == pat then true
  else if pat.contains '*' then
    if (chars "/*").isSuffixOf pat then
      -- `pattern[:-2]`
      let pre := pat.dropLast.dropLast
      (pre ++ ['/']).isPrefixOf path && !(path == pre ++ ['/'])
    else
      match regexTokens pat with
      | some ts => reMatchFull ts path
      | none => false
  else false

/-- One whitelist entry: the legacy format is a bare pattern string, the new
format is a dict whose `method`/`path` keys may be missing
(apiguardian.py lines 642-657). -/
inductive WEntry where
  | str (pat : Str)
  | dict (method : Option Str) (path : Option Str)
deriving DecidableEq

/-- Whether one whitelist entry matches the endpoint `(method, path)`:
dict entries are skipped when their (upper-cased) method differs from the
endpoint's, then both formats use `matchPattern`. -/
def entryMatches (method path : Str) : WEntry → Bool
  | .str pat => matchPattern pat path
  | .dict em ep =>
    let endpoint_method := (em.getD []).map Char.toUpper
    let endpoint_pattern := ep.getD []
    if endpoint_method == method.map Char.toUpper then
      matchPattern endpoint_pattern path
    else false

/-- A whitelist maps API names to entry lists (a Python dict). -/
abbrev Whitelist := List (Str × List WEntry)

/-- Dict lookup by API name. -/
def wlLookup (w : Whitelist) (api_name : Str) : Option (List WEntry) :=
  (w.find? (fun p => p.1 == api_name)).map (fun p => p.2)

/-- `is_endpoint_whitelisted` (apiguardian.py lines 615-681). -/
def is_endpoint_whitelisted (api_name method path : Str) (w : Whitelist) : Bool :=
  match wlLookup w api_name with
  | none => false
  | some entries => entries.any (entryMatches method path)

/-- `get_whitelist_source` (apiguardian.py lines 684-726). -/
def get_whitelist_source (api_name method path : Str)
    (no_requiere_seguridad seguridad_en_microservicio seguridad_por_ip : Whitelist) : Str :=
  let in_no_requiere := is_endpoint_whitelisted api_name method path no_requiere_seguridad
  let in_microservicio := is_endpoint_whitelisted api_name method path seguridad_en_microservicio
  let in_por_ip := is_endpoint_whitelisted api_name method path seguridad_por_ip
  let sources :=
    (if in_no_requiere then [chars "NO_REQUIERE_SEGURIDAD"] else []) ++
    (if in_microservicio then [chars "SEGURIDAD_EN_MICROSERVICIO"] else []) ++
    (if in_por_ip then [chars "SEGURIDAD_POR_IP"] else [])
  if !sources.isEmpty then List.intercalate ['+'] sources else chars "NO"

/-- Modelled from the spec (§4.1 of spec.md): the classification returns the
`+`-joined names of exactly the matching categories, in the fixed order
NO_REQUIERE_SEGURIDAD, SEGURIDAD_EN_MICROSERVICIO, SEGURIDAD_POR_IP, and the
sentinel `"NO"` when none match.  Stated from the spec's words to be compared
with `get_whitelist_source`. -/
def whitelistSourceSpec (api_name method path : Str)
    (w1 w2 w3 : Whitelist) : Str :=
  let matched :=
    ([(chars "NO_REQUIERE_SEGURIDAD", w1),
      (chars "SEGURIDAD_EN_MICROSERVICIO", w2),
      (chars "SEGURIDAD_POR_IP", w3)].filter
        (fun c => is_endpoint_whitelisted api_name method path c.2)).map (fun c => c.1)
  if matched.isEmpty then chars "NO" else List.intercalate ['+'] matched

/-- Split `s` at the first occurrence of the (nonempty) separator `sep`
(Python `s.split(sep, 1)` when `sep in s`; `none` when `sep` is absent). -/
def splitFirst (sep : Str) : Str → Option (Str × Str)
  | [] => if sep.isEmpty then some ([], []) else none
  | a :: t =>
    if sep.isPrefixOf (a :: t) then some ([], (a :: t).drop sep.length)
    else (splitFirst sep t).map (fun p => (a :: p.1, p.2))

/-- `clean_endpoint_url` (apiguardian.py lines 524-562): empty input passes
through, inputs starting with `'/'` pass through, otherwise the part after the
first `"://"` is split at its first `'/'` and the remainder is returned with a
leading slash; anything else becomes the empty string. -/
def clean_endpoint_url (url : Str) : Str :=
  if url.isEmpty then []
  else if (chars "/").isPrefixOf url then url
  else
    match splitFirst (chars "://") url with
    | some p =>
      (match splitFirst (chars "/") p.2 with
       | some q => '/' :: q.2
       | none => [])
    | none => []

/-- `PROPER_AUTH_TYPES` (apiguardian.py lines 43-45). -/
def PROPER_AUTH_TYPES : List Str :=
  [chars "CUSTOM", chars "AWS_IAM", chars "COGNITO_USER_POOLS"]

/-- `EXCLUDED_API_SUFFIXES` (apiguardian.py line 36). -/
def EXCLUDED_API_SUFFIXES : List Str := [chars "-DEV", chars "-CI"]

/-- `EXCLUDED_HTTP_METHODS` (apiguardian.py line 40). -/
def EXCLUDED_HTTP_METHODS : List Str := [chars "OPTIONS"]

/-- `_has_proper_authorization` (apiguardian.py lines 729-739):
`auth_type in PROPER_AUTH_TYPES` where `auth_type` may be Python `None`. -/
def _has_proper_authorization (auth_type : Option Str) : Bool :=
  match auth_type with
  | some t => PROPER_AUTH_TYPES.contains t
  | none => false

/-- An API record `{id, name}` as consumed by the scanners. -/
structure Api where
  id : Str
  name : Str
deriving DecidableEq

/-- `filter_apis_by_suffix` (apiguardian.py lines 742-758). -/
def filter_apis_by_suffix (apis : List Api) : List Api :=
  apis.filter (fun api =>
    !(EXCLUDED_API_SUFFIXES.any (fun suffix => suffix.isSuffixOf api.name)))

/-- `filter_options_methods` (apiguardian.py lines 761-775), over the method
keys of the resource-methods dict (the per-method config values are never read
by the analysis loop). -/
def filter_options_methods (methods : List Str) : List Str :=
  methods.filter (fun m => !(EXCLUDED_HTTP_METHODS.contains m))

namespace ApiFilter

/-- `EXCLUDED_API_SUFFIXES` of src/security_check/api_filter.py (line 13). -/
def EXCLUDED_API_SUFFIXES : List Str := [chars "-DEV", chars "-CI"]

/-- `EXCLUDED_HTTP_METHODS` of src/security_check/api_filter.py (line 16). -/
def EXCLUDED_HTTP_METHODS : List Str := [chars "OPTIONS"]

/-- `filter_apis` (api_filter.py lines 22-53).  The Python default argument is
`None` and the body computes `excluded_suffixes or EXCLUDED_API_SUFFIXES`, so a
falsy argument (Python `None` or the empty set) is replaced by the default. -/
def filter_apis (apis : List Api) (excluded_suffixes : Option (List Str)) : List Api :=
  let suffixes :=
    match excluded_suffixes with
    | some s => if s.isEmpty then EXCLUDED_API_SUFFIXES else s
    | none => EXCLUDED_API_SUFFIXES
  apis.filter (fun api =>
    !(suffixes.any (fun suffix => suffix.isSuffixOf api.name)))

/-- `filter_methods` (api_filter.py lines 56-81), same `or`-default shape. -/
def filter_methods {α : Type} (methods : List (Str × α))
    (excluded_methods : Option (List Str)) : List (Str × α) :=
  let excludes :=
    match excluded_methods with
    | some s => if s.isEmpty then EXCLUDED_HTTP_METHODS else s
    | none => EXCLUDED_HTTP_METHODS
  methods.filter (fun p => !(excludes.contains p.1))

end ApiFilter

/-- A resource record from the per-API resource listing: its id, path and the
method keys of its `resourceMethods` field. -/
structure Resource where
  id : Str
  path : Str
  resourceMethods : List Str
deriving DecidableEq

/-- The raw per-method record returned by `aws apigateway get-method`
(the fields read by the source). -/
structure MethodConfig where
  authorizationType : Option Str
  authorizerId : Option Str
  apiKeyRequired : Bool
deriving DecidableEq

/-- The authorizer-detail record built by `get_authorizer_details`
(apiguardian.py lines 436-469); stored values may be Python `None`. -/
structure AuthorizerDetail where
  name : Option Str
  type : Option Str
  identitySource : Option Str
  identityValidationExpression : Option Str
  authorizerUri : Option Str
  authorizerCredentials : Option Str
  authorizerResultTtlInSeconds : Option Int
deriving DecidableEq

/-- The integration-detail record built by `get_integration_details`
(apiguardian.py lines 472-521); only the `uri` is consumed downstream. -/
structure IntegrationDetail where
  uri : Str
  type : Option Str
  httpMethod : Option Str
  headers : List (Str × Str)
deriving DecidableEq

/-- The remote AWS API as a family of oracles.  A `none` result models a
failed call (the source returns `None` in exactly those places). -/
structure World where
  getResources : Str → Option (List Resource)
  getResourceMethods : Str → Str → Option (List Str)
  getMethod : Str → Str → Str → Option MethodConfig
  getAuthorizerDetails : Str → Str → Option AuthorizerDetail
  getIntegrationDetails : Str → Str → Str → Option IntegrationDetail

/-- The authorizer cache: a dict from authorizer id to its detail. -/
abbrev Cache := List (Str × AuthorizerDetail)

/-- Dict membership test `authorizer_id in authorizer_cache`. -/
def cacheContains (cache : Cache) (aid : Str) : Bool :=
  cache.any (fun p => p.1 == aid)

/-- Dict read `authorizer_cache[authorizer_id]`. -/
def cacheGet (cache : Cache) (aid : Str) : Option AuthorizerDetail :=
  (cache.find? (fun p => p.1 == aid)).map (fun p => p.2)

/-- The guard at apiguardian.py line 408 / 928:
`authorizer_id and auth_type in ['CUSTOM', 'COGNITO_USER_POOLS']`. -/
def claimsBearing (auth_type : Option Str) (authorizer_id : Option Str) : Bool :=
  truthyStr authorizer_id &&
    (auth_type == some (chars "CUSTOM") || auth_type == some (chars "COGNITO_USER_POOLS"))

/-- The authorization summary assembled by `get_method_authorization`. -/
structure AuthInfo where
  authorizationType : Option Str
  authorizerId : Option Str
  apiKeyRequired : Bool
  authorizerDetails : Option AuthorizerDetail
  identitySource : Option Str
deriving DecidableEq

/-- `get_method_authorization` (apiguardian.py lines 373-434), instrumented
with the number of remote authorizer-detail fetches it performs (0 or 1):
on a claims-bearing method it reads the cache when the cache is truthy and
holds the id, and otherwise falls back to a direct `get_authorizer_details`
call (one fetch). -/
def get_method_authorization (w : World) (api_id resource_id method : Str)
    (cache : Cache) : Option AuthInfo × Nat :=
  match w.getMethod api_id resource_id method with
  | none => (none, 0)
  | some data =>
    let detailsFetch : Option AuthorizerDetail × Nat :=
      if claimsBearing data.authorizationType data.authorizerId then
        match data.authorizerId with
        | some aid =>
          if !cache.isEmpty && cacheContains cache aid then (cacheGet cache aid, 0)
          else (w.getAuthorizerDetails api_id aid, 1)
        | none => (none, 0)
      else (none, 0)
    let authorizer_details := detailsFetch.1
    let authorizer_claims := authorizer_details.bind (fun d => d.identitySource)
    (some { authorizationType := data.authorizationType
            authorizerId := data.authorizerId
            apiKeyRequired := data.apiKeyRequired
            authorizerDetails := authorizer_details
            identitySource := authorizer_claims }, detailsFetch.2)

/-- Append an id to a dedup list unless present (set insertion). -/
def insertIdOnce (acc : List Str) (i : Str) : List Str :=
  if i ∈ acc then acc else acc ++ [i]

/-- One iteration of the discovery loop of
`_collect_authorizer_ids_from_resource` (apiguardian.py lines 916-931):
OPTIONS methods and failed method fetches contribute nothing, a
claims-bearing method contributes its authorizer id. -/
def collectMethodStep (w : World) (api_id : Str) (r : Resource)
    (acc : List Str) (m : Str) : List Str :=
  if m = chars "OPTIONS" then acc
  else
    match w.getMethod api_id r.id m with
    | some data =>
      if claimsBearing data.authorizationType data.authorizerId then
        insertIdOnce acc (data.authorizerId.getD [])
      else acc
    | none => acc

/-- `_collect_authorizer_ids_from_resource` (apiguardian.py lines 897-933):
the set of claims-bearing authorizer ids among the non-OPTIONS methods listed
in the resource record, as a duplicate-free list. -/
def collect_authorizer_ids_from_resource (w : World) (api_id : Str) (r : Resource) : List Str :=
  r.resourceMethods.foldl (collectMethodStep w api_id r) []

/-- Phase 1 of `build_authorizer_cache` (apiguardian.py lines 961-991): the
union, without duplicates, of the per-resource authorizer-id sets. -/
def unique_authorizer_ids (w : World) (api_id : Str) (resources : List Resource) : List Str :=
  resources.foldl
    (fun acc r => (collect_authorizer_ids_from_resource w api_id r).foldl insertIdOnce acc)
    []

/-- `build_authorizer_cache` (apiguardian.py lines 936-1036), instrumented
with its remote authorizer-detail fetch count: phase 2 fetches each collected
id exactly once, and an id whose fetch fails is left out of the cache. -/
def build_authorizer_cache (w : World) (api_id : Str) (resources : List Resource) :
    Cache × Nat :=
  let ids := unique_authorizer_ids w api_id resources
  (ids.filterMap (fun aid => (w.getAuthorizerDetails api_id aid).map (fun d => (aid, d))),
   ids.length)

/-- The `method_auth` dict built for one analyzed method
(apiguardian.py lines 859-870, plus the `whitelist_source` key optionally
added at line 887). -/
structure MethodAuthRow where
  path : Str
  resource_id : Str
  method : Str
  authorizationType : Option Str
  specificAuthType : Option Str
  authorizerId : Option Str
  authorizerName : Option Str
  identitySource : Option Str
  apiKeyRequired : Bool
  endpointUrl : Str
  whitelist_source : Option Str
deriving DecidableEq

/-- One CSV row as written by `update_report_file`
(apiguardian.py lines 1451-1524). -/
structure ReportRow where
  api : Str
  method : Str
  path : Str
  is_authorized : Str
  authorization_type : Str
  authorizer_name : Str
  api_key : Str
  whitelist : Str
  endpoint_url : Str
deriving DecidableEq

/-- The row construction of `update_report_file` (apiguardian.py
lines 1469-1500): `is_authorized` is YES exactly for proper authorization,
falsy authorization-type and authorizer-name values print as NONE, the
API-key flag prints as YES/NO, a missing whitelist source defaults to NO. -/
def update_report_row (api_name : Str) (d : MethodAuthRow) : ReportRow :=
  { api := api_name
    method := d.method
    path := d.path
    is_authorized :=
      if _has_proper_authorization d.authorizationType then chars "YES" else chars "NO"
    authorization_type := orElseStr d.authorizationType (chars "NONE")
    authorizer_name := orElseStr d.authorizerName (chars "NONE")
    api_key := if d.apiKeyRequired then chars "YES" else chars "NO"
    whitelist := d.whitelist_source.getD (chars "NO")
    endpoint_url := d.endpointUrl }

/-- The `specific_auth_type` heuristic (apiguardian.py lines 839-847). -/
def specificAuthTypeOf (auth_type : Option Str) (authorizer_name : Option Str) : Option Str :=
  if truthyStr authorizer_name then
    let lower_name := (authorizer_name.getD []).map Char.toLower
    if containsSub (chars "admin") lower_name then some (chars "ADMIN")
    else if containsSub (chars "customer") lower_name then some (chars "CUSTOMER")
    else auth_type
  else auth_type

/-- Result of `analyze_resource_methods`, instrumented with the CSV rows it
appends and the remote authorizer-detail fetches its method loop performs. -/
structure ResourceAnalysis where
  methods : List MethodAuthRow
  methods_filtered : Nat
  reportRows : List ReportRow
  authFetches : Nat
deriving DecidableEq

/-- The body of the per-method loop of `analyze_resource_methods`
(apiguardian.py lines 828-888): a failed authorization lookup is skipped
(`continue`), otherwise the `method_auth` row is built, extended with the
whitelist source and appended to the report when reporting is active. -/
def analyzeMethodStep (w : World) (api_id resource_id path : Str) (report : Bool)
    (api_name : Option Str) (cache : Cache) (w1 w2 w3 : Whitelist)
    (acc : ResourceAnalysis) (method : Str) : ResourceAnalysis :=
  match get_method_authorization w api_id resource_id method cache with
  | (none, n) => { acc with authFetches := acc.authFetches + n }
  | (some auth_info, n) =>
    let auth_type := auth_info.authorizationType
    let authorizer_details := auth_info.authorizerDetails
    let authorizer_name : Option Str :=
      match authorizer_details with
      | some d => d.name
      | none => some []
    let specific_auth_type := specificAuthTypeOf auth_type authorizer_name
    let endpoint_url_clean :=
      match w.getIntegrationDetails api_id resource_id method with
      | some integration_info => clean_endpoint_url integration_info.uri
      | none => clean_endpoint_url []
    let method_auth : MethodAuthRow :=
      { path := path
        resource_id := resource_id
        method := method
        authorizationType := auth_type
        specificAuthType := specific_auth_type
        authorizerId := auth_info.authorizerId
        authorizerName := authorizer_name
        identitySource := auth_info.identitySource
        apiKeyRequired := auth_info.apiKeyRequired
        endpointUrl := endpoint_url_clean
        whitelist_source := none }
    if report && truthyStr api_name then
      let whitelist_source :=
        if !w1.isEmpty || !w2.isEmpty || !w3.isEmpty then
          get_whitelist_source (api_name.getD []) method path w1 w2 w3
        else chars "NO"
      let method_auth := { method_auth with whitelist_source := some whitelist_source }
      { acc with
        methods := acc.methods ++ [method_auth]
        reportRows := acc.reportRows ++ [update_report_row (api_name.getD []) method_auth]
        authFetches := acc.authFetches + n }
    else
      { acc with
        methods := acc.methods ++ [method_auth]
        authFetches := acc.authFetches + n }

/-- `analyze_resource_methods` (apiguardian.py lines 782-894): a failed or
empty method fetch contributes nothing, OPTIONS methods are filtered and
counted, the remaining methods are processed sequentially. -/
def analyze_resource_methods (w : World) (api_id resource_id path : Str) (report : Bool)
    (api_name : Option Str) (cache : Cache) (w1 w2 w3 : Whitelist) : ResourceAnalysis :=
  match w.getResourceMethods api_id resource_id with
  | none => { methods := [], methods_filtered := 0, reportRows := [], authFetches := 0 }
  | some ms =>
    if ms.isEmpty then
      { methods := [], methods_filtered := 0, reportRows := [], authFetches := 0 }
    else
      let filtered := filter_options_methods ms
      let methods_filtered := ms.length - filtered.length
      filtered.foldl (analyzeMethodStep w api_id resource_id path report api_name cache w1 w2 w3)
        { methods := [], methods_filtered := methods_filtered, reportRows := [], authFetches := 0 }

/-- Terminal per-API result (the dict returned by `check_api_security`;
the error path at apiguardian.py lines 1165-1172 carries no
`methods_filtered` key, which readers default to 0). -/
structure ScanResult where
  api_id : Str
  api_name : Str
  total_resources : Nat
  resources_without_auth : List MethodAuthRow
  resources_with_auth : List MethodAuthRow
  methods_filtered : Nat
  error : Option Str
deriving DecidableEq

/-- The error message of the failed-resource-listing path
(apiguardian.py line 1171). -/
def RESOURCES_ERROR_MSG : Str :=
  chars "Failed to retrieve resources - Check AWS credentials/permissions"

/-- Accumulator of the per-resource result loop of `check_api_security`. -/
structure ScanAcc where
  resources_with_auth : List MethodAuthRow
  resources_without_auth : List MethodAuthRow
  methods_filtered : Nat
  reportRows : List ReportRow
  authFetches : Nat
deriving DecidableEq

/-- One iteration of the resource-result loop of `check_api_security`
(apiguardian.py lines 1230-1267): totals are accumulated, a resource with no
analyzed methods is skipped, every analyzed method is appended to the
protected or unprotected list by `_has_proper_authorization`. -/
def apiScanStep (w : World) (api_id : Str) (report : Bool) (api_name : Str)
    (cache : Cache) (w1 w2 w3 : Whitelist) (acc : ScanAcc) (r : Resource) : ScanAcc :=
  let res := analyze_resource_methods w api_id r.id r.path report (some api_name) cache w1 w2 w3
  let acc :=
    { acc with
      methods_filtered := acc.methods_filtered + res.methods_filtered
      reportRows := acc.reportRows ++ res.reportRows
      authFetches := acc.authFetches + res.authFetches }
  if res.methods.isEmpty then acc
  else
    { acc with
      resources_with_auth := acc.resources_with_auth ++
        res.methods.filter (fun m => _has_proper_authorization m.authorizationType)
      resources_without_auth := acc.resources_without_auth ++
        res.methods.filter (fun m => !_has_proper_authorization m.authorizationType) }

/-- `check_api_security` (apiguardian.py lines 1120-1289), instrumented with
the CSV rows appended and the total number of remote authorizer-detail
fetches (cache build plus per-method fallbacks).  A failed resource listing
yields the error result; an empty listing yields an empty success result;
otherwise the cache is built and every resource is analyzed. -/
def check_api_security (w : World) (api_id api_name : Str) (report : Bool)
    (w1 w2 w3 : Whitelist) : ScanResult × List ReportRow × Nat :=
  match w.getResources api_id with
  | none =>
    ({ api_id := api_id, api_name := api_name, total_resources := 0
       resources_without_auth := [], resources_with_auth := []
       methods_filtered := 0, error := some RESOURCES_ERROR_MSG }, [], 0)
  | some resources =>
    if resources.length = 0 then
      ({ api_id := api_id, api_name := api_name, total_resources := 0
         resources_without_auth := [], resources_with_auth := []
         methods_filtered := 0, error := none }, [], 0)
    else
      let built := build_authorizer_cache w api_id resources
      let cache := built.1
      let acc := resources.foldl (apiScanStep w api_id report api_name cache w1 w2 w3)
        { resources_with_auth := [], resources_without_auth := []
          methods_filtered := 0, reportRows := [], authFetches := 0 }
      ({ api_id := api_id, api_name := api_name, total_resources := resources.length
         resources_without_auth := acc.resources_without_auth
         resources_with_auth := acc.resources_with_auth
         methods_filtered := acc.methods_filtered, error := none },
       acc.reportRows, built.2 + acc.authFetches)

/-- `analyze_apis_sequentially` (apiguardian.py lines 1630-1710): the loaded
whitelists are fixed once, then each API of the input list is scanned in
order and contributes exactly one result. -/
def analyze_apis_sequentially (w : World) (apis : List Api) (report : Bool)
    (w1 w2 w3 : Whitelist) : List ScanResult :=
  apis.map (fun api => (check_api_security w api.id api.name report w1 w2 w3).1)

/-- Total number of remote authorizer-detail fetches of one API scan. -/
def scanAuthorizerFetches (w : World) (api_id api_name : Str) (report : Bool)
    (w1 w2 w3 : Whitelist) : Nat :=
  (check_api_security w api_id api_name report w1 w2 w3).2.2

/-! Helper lemmas about the embedded operations. -/

theorem mem_insertIdOnce_of_mem {x : Str} {acc : List Str} (i : Str) (h : x ∈ acc) :
    x ∈ insertIdOnce acc i := by
  unfold insertIdOnce
  split
  · exact h
  · exact List.mem_append_left _ h

theorem mem_insertIdOnce_self (acc : List Str) (i : Str) : i ∈ insertIdOnce acc i := by
  unfold insertIdOnce
  split
  · assumption
  · exact List.mem_append_right _ (List.mem_singleton.mpr rfl)

theorem mem_foldl_insertIdOnce_of_mem_acc {x : Str} {acc : List Str} (l : List Str)
    (h : x ∈ acc) : x ∈ l.foldl insertIdOnce acc := by
  induction l generalizing acc with
  | nil => exact h
  | cons i t ih => exact ih (mem_insertIdOnce_of_mem i h)

theorem mem_foldl_insertIdOnce_of_mem {x : Str} {l : List Str} (acc : List Str)
    (h : x ∈ l) : x ∈ l.foldl insertIdOnce acc := by
  induction l generalizing acc with
  | nil => cases h
  | cons i t ih =>
    rcases List.mem_cons.mp h with h' | h'
    · subst h'
      exact mem_foldl_insertIdOnce_of_mem_acc t (mem_insertIdOnce_self acc x)
    · exact ih _ h'

theorem mem_collectMethodStep_of_mem {x : Str} {acc : List Str}
    (w : World) (api_id : Str) (r : Resource) (m : Str) (h : x ∈ acc) :
    x ∈ collectMethodStep w api_id r acc m := by
  unfold collectMethodStep
  split
  · exact h
  · split
    · split
      · exact mem_insertIdOnce_of_mem _ h
      · exact h
    · exact h

theorem mem_foldl_collectMethodStep_of_mem_acc {x : Str} {acc : List Str}
    (w : World) (api_id : Str) (r : Resource) (l : List Str) (h : x ∈ acc) :
    x ∈ l.foldl (collectMethodStep w api_id r) acc := by
  induction l generalizing acc with
  | nil => exact h
  | cons m t ih => exact ih (mem_collectMethodStep_of_mem w api_id r m h)

theorem collectMethodStep_eq {w : World} {api_id : Str} {r : Resource}
    {m : Str} {data : MethodConfig} (acc : List Str)
    (hopt : m ≠ chars "OPTIONS")
    (hget : w.getMethod api_id r.id m = some data)
    (hcb : claimsBearing data.authorizationType data.authorizerId = true) :
    collectMethodStep w api_id r acc m = insertIdOnce acc (data.authorizerId.getD []) := by
  unfold collectMethodStep
  rw [if_neg hopt, hget]
  simp only [hcb, if_true]

theorem mem_collect_ids {w : World} {api_id : Str} {r : Resource} {m : Str}
    {data : MethodConfig}
    (hm : m ∈ r.resourceMethods) (hopt : m ≠ chars "OPTIONS")
    (hget : w.getMethod api_id r.id m = some data)
    (hcb : claimsBearing data.authorizationType data.authorizerId = true) :
    data.authorizerId.getD [] ∈ collect_authorizer_ids_from_resource w api_id r := by
  unfold collect_authorizer_ids_from_resource
  have key : ∀ (l : List Str) (acc : List Str), m ∈ l →
      data.authorizerId.getD [] ∈ l.foldl (collectMethodStep w api_id r) acc := by
    intro l
    induction l with
    | nil => intro acc h; cases h
    | cons m' t ih =>
      intro acc h
      rcases List.mem_cons.mp h with h' | h'
      · subst h'
        rw [List.foldl_cons]
        apply mem_foldl_collectMethodStep_of_mem_acc
        rw [collectMethodStep_eq acc hopt hget hcb]
        exact mem_insertIdOnce_self acc _
      · exact ih _ h'
  exact key r.resourceMethods [] hm

theorem mem_foldl_union_of_mem_acc {aid : Str} (w : World) (api_id : Str)
    (rs : List Resource) (acc : List Str) (h : aid ∈ acc) :
    aid ∈ rs.foldl
      (fun acc r => (collect_authorizer_ids_from_resource w api_id r).foldl insertIdOnce acc)
      acc := by
  induction rs generalizing acc with
  | nil => exact h
  | cons r t ih => exact ih _ (mem_foldl_insertIdOnce_of_mem_acc _ h)

theorem mem_unique_ids {w : World} {api_id : Str} {resources : List Resource}
    {r : Resource} {aid : Str}
    (hr : r ∈ resources) (ha : aid ∈ collect_authorizer_ids_from_resource w api_id r) :
    aid ∈ unique_authorizer_ids w api_id resources := by
  unfold unique_authorizer_ids
  have key : ∀ (rs : List Resource) (acc : List Str), r ∈ rs →
      aid ∈ rs.foldl
        (fun acc r => (collect_authorizer_ids_from_resource w api_id r).foldl insertIdOnce acc)
        acc := by
    intro rs
    induction rs with
    | nil => intro acc h; cases h
    | cons r' t ih =>
      intro acc h
      rcases List.mem_cons.mp h with h' | h'
      · subst h'
        rw [List.foldl_cons]
        exact mem_foldl_union_of_mem_acc w api_id t _
          (mem_foldl_insertIdOnce_of_mem acc ha)
      · exact ih _ h'
  exact key resources [] hr

theorem cacheContains_build {w : World} {api_id : Str} {ids : List Str} {aid : Str}
    {d : AuthorizerDetail}
    (hmem : aid ∈ ids) (hd : w.getAuthorizerDetails api_id aid = some d) :
    cacheContains
      (ids.filterMap (fun aid => (w.getAuthorizerDetails api_id aid).map (fun d => (aid, d))))
      aid = true := by
  induction ids with
  | nil => cases hmem
  | cons x t ih =>
    rcases List.mem_cons.mp hmem with h' | h'
    · subst h'
      simp [List.filterMap_cons, hd, cacheContains]
    · cases hx : w.getAuthorizerDetails api_id x with
      | none => simpa [List.filterMap_cons, hx, cacheContains] using ih h'
      | some dx =>
        have := ih h'
        simp only [cacheContains] at this
        simp [List.filterMap_cons, hx, cacheContains, this]

theorem cache_ne_nil_of_contains {cache : Cache} {aid : Str}
    (h : cacheContains cache aid = true) : cache.isEmpty = false := by
  cases cache with
  | nil => simp [cacheContains] at h
  | cons p t => rfl

theorem gma_snd_zero {w : World} {api_id rid m : Str} {cache : Cache}
    (h : ∀ data : MethodConfig, w.getMethod api_id rid m = some data →
        claimsBearing data.authorizationType data.authorizerId = true →
        (!cache.isEmpty && cacheContains cache (data.authorizerId.getD [])) = true) :
    (get_method_authorization w api_id rid m cache).2 = 0 := by
  unfold get_method_authorization
  cases hg : w.getMethod api_id rid m with
  | none => rfl
  | some data =>
    cases hcb : claimsBearing data.authorizationType data.authorizerId with
    | false => simp [hcb]
    | true =>
      cases haid : data.authorizerId with
      | none => simp [hcb, haid]
      | some aid =>
        have hc := h data hg hcb
        rw [haid] at hc
        simp only [Option.getD_some] at hc
        rw [haid] at hcb
        simp [hcb, haid, hc]

theorem analyzeMethodStep_authFetches (w : World) (api_id rid path : Str) (report : Bool)
    (api_name : Option Str) (cache : Cache) (w1 w2 w3 : Whitelist)
    (acc : ResourceAnalysis) (m : Str) :
    (analyzeMethodStep w api_id rid path report api_name cache w1 w2 w3 acc m).authFetches
      = acc.authFetches + (get_method_authorization w api_id rid m cache).2 := by
  unfold analyzeMethodStep
  cases hg : get_method_authorization w api_id rid m cache with
  | mk o n =>
    cases o with
    | none => rfl
    | some info =>
      simp only []
      split <;> rfl

theorem foldl_analyzeMethodStep_authFetches (w : World) (api_id rid path : Str)
    (report : Bool) (api_name : Option Str) (cache : Cache) (w1 w2 w3 : Whitelist)
    (l : List Str) (acc : ResourceAnalysis)
    (h : ∀ m ∈ l, (get_method_authorization w api_id rid m cache).2 = 0) :
    ((l.foldl (analyzeMethodStep w api_id rid path report api_name cache w1 w2 w3) acc)).authFetches
      = acc.authFetches := by
  induction l generalizing acc with
  | nil => rfl
  | cons m t ih =>
    rw [List.foldl_cons, ih _ (fun m' hm' => h m' (List.mem_cons_of_mem _ hm')),
      analyzeMethodStep_authFetches, h m (List.mem_cons_self _ _)]
    omega

theorem analyze_authFetches_zero (w : World) (api_id rid path : Str) (report : Bool)
    (api_name : Option Str) (cache : Cache) (w1 w2 w3 : Whitelist)
    (h : ∀ m ∈ filter_options_methods ((w.getResourceMethods api_id rid).getD []),
        (get_method_authorization w api_id rid m cache).2 = 0) :
    (analyze_resource_methods w api_id rid path report api_name cache w1 w2 w3).authFetches = 0 := by
  unfold analyze_resource_methods
  cases hms : w.getResourceMethods api_id rid with
  | none => rfl
  | some ms =>
    rw [hms] at h
    simp only [Option.getD_some] at h
    show (if ms.isEmpty = true then
            ({ methods := [], methods_filtered := 0, reportRows := [], authFetches := 0 } : ResourceAnalysis)
          else
            List.foldl (analyzeMethodStep w api_id rid path report api_name cache w1 w2 w3)
              { methods := [], methods_filtered := ms.length - (filter_options_methods ms).length,
                reportRows := [], authFetches := 0 }
              (filter_options_methods ms)).authFetches = 0
    by_cases he : ms.isEmpty = true
    · rw [if_pos he]
    · rw [if_neg he]
      exact foldl_analyzeMethodStep_authFetches w api_id rid path report api_name cache w1 w2 w3
        (filter_options_methods ms)
        { methods := [], methods_filtered := ms.length - (filter_options_methods ms).length,
          reportRows := [], authFetches := 0 } h

theorem apiScanStep_authFetches (w : World) (api_id : Str) (report : Bool) (api_name : Str)
    (cache : Cache) (w1 w2 w3 : Whitelist) (acc : ScanAcc) (r : Resource) :
    (apiScanStep w api_id report api_name cache w1 w2 w3 acc r).authFetches
      = acc.authFetches +
        (analyze_resource_methods w api_id r.id r.path report (some api_name) cache w1 w2 w3).authFetches := by
  simp only [apiScanStep]
  split <;> rfl

theorem foldl_apiScanStep_authFetches (w : World) (api_id : Str) (report : Bool)
    (api_name : Str) (cache : Cache) (w1 w2 w3 : Whitelist)
    (rs : List Resource) (acc : ScanAcc)
    (h : ∀ r ∈ rs,
        (analyze_resource_methods w api_id r.id r.path report (some api_name) cache w1 w2 w3).authFetches = 0) :
    ((rs.foldl (apiScanStep w api_id report api_name cache w1 w2 w3) acc)).authFetches
      = acc.authFetches := by
  induction rs generalizing acc with
  | nil => rfl
  | cons r t ih =>
    rw [List.foldl_cons, ih _ (fun r' hr' => h r' (List.mem_cons_of_mem _ hr')),
      apiScanStep_authFetches, h r (List.mem_cons_self _ _)]
    omega

theorem splitOnStar_ne_nil (p : Str) : splitOnStar p ≠ [] := by
  cases p with
  | nil => simp [splitOnStar]
  | cons c t =>
    unfold splitOnStar
    split
    · simp
    · cases h : splitOnStar t <;> simp

theorem intercalateStar_cons_cons (c : Char) (h : Str) (r : List Str) :
    intercalateStar ((c :: h) :: r) = c :: intercalateStar (h :: r) := by
  cases r with
  | nil => rfl
  | cons x r' => rfl

theorem intercalateStar_splitOnStar (p : Str) : intercalateStar (splitOnStar p) = p := by
  induction p with
  | nil => rfl
  | cons c t ih =>
    unfold splitOnStar
    by_cases hc : c = '*'
    · rw [if_pos hc]
      cases hs : splitOnStar t with
      | nil => exact absurd hs (splitOnStar_ne_nil t)
      | cons h r =>
        rw [hs] at ih
        subst hc
        show '*' :: intercalateStar (h :: r) = '*' :: t
        rw [ih]
    · rw [if_neg hc]
      cases hs : splitOnStar t with
      | nil => exact absurd hs (splitOnStar_ne_nil t)
      | cons h r =>
        rw [hs] at ih
        show intercalateStar ((c :: h) :: r) = c :: t
        rw [intercalateStar_cons_cons, ih]

theorem matchStars_intercalateStar : ∀ cs : List Str, cs ≠ [] →
    matchStars cs (intercalateStar cs) = true
  | [], h => absurd rfl h
  | [c], _ => by simp [matchStars, intercalateStar]
  | c :: c' :: cs, _ => by
    have h1 : c.isPrefixOf (c ++ '*' :: intercalateStar (c' :: cs)) = true :=
      List.isPrefixOf_iff_prefix.mpr (List.prefix_append _ _)
    have h2 : matchStars (c' :: cs) (intercalateStar (c' :: cs)) = true :=
      matchStars_intercalateStar (c' :: cs) (by simp)
    show (c.isPrefixOf (c ++ '*' :: intercalateStar (c' :: cs)) &&
      (wildSplits ((c ++ '*' :: intercalateStar (c' :: cs)).drop c.length)).any
        (fun p => !(p.1.contains '/') && matchStars (c' :: cs) p.2)) = true
    rw [h1, List.drop_left]
    simp [wildSplits, h2]

theorem dropLast_two (t : Str) (a b : Char) : (t ++ [a, b]).dropLast.dropLast = t := by
  have h : t ++ [a, b] = (t ++ [a]) ++ [b] := by simp
  rw [h, List.dropLast_concat, List.dropLast_concat]

theorem matchPattern_slashStar (pat path : Str)
    (h : (chars "/*").isSuffixOf pat = true) :
    matchPattern pat path =
      ((pat.dropLast.dropLast ++ chars "/").isPrefixOf path &&
        !(path == pat.dropLast.dropLast ++ chars "/")) := by
  obtain ⟨t, rfl⟩ := List.isSuffixOf_iff_suffix.mp h
  have hsep : chars "/*" = ['/', '*'] := rfl
  rw [hsep] at h ⊢
  rw [dropLast_two]
  have hsl : chars "/" = ['/'] := rfl
  rw [hsl]
  cases hbeq : (path == t ++ ['/', '*']) with
  | true =>
    have hp : path = t ++ ['/', '*'] := by
      exact eq_of_beq hbeq
    subst hp
    have h1 : (t ++ ['/']).isPrefixOf (t ++ ['/', '*']) = true := by
      apply List.isPrefixOf_iff_prefix.mpr
      have : t ++ ['/', '*'] = (t ++ ['/']) ++ ['*'] := by simp
      rw [this]
      exact List.prefix_append _ _
    have h2 : (t ++ ['/', '*'] == t ++ ['/']) = false := by
      apply beq_eq_false_iff_ne.mpr
      intro hcontra
      have := congrArg List.length hcontra
      simp at this
    rw [h1, h2]
    unfold matchPattern
    rw [hbeq]
    rfl
  | false =>
    have hcon : (t ++ ['/', '*']).contains '*' = true := by
      simp
    unfold matchPattern
    rw [hbeq, hsep]
    simp only [Bool.false_eq_true, if_false, hcon, if_true, h, dropLast_two]

/-- A tokenizable pattern matches itself: every literal and dot token is
its own pattern character and each star token consumes its `'*'`. -/
theorem matchTokens_self : ∀ (pat : Str) (ts : List RTok),
    regexTokens pat = some ts → matchTokens ts pat = true := by
  intro pat
  induction pat with
  | nil =>
    intro ts h
    simp [regexTokens] at h
    subst h
    rfl
  | cons c t ih =>
    intro ts h
    unfold regexTokens at h
    by_cases hc : c = '*'
    · rw [if_pos hc] at h
      cases ht : regexTokens t with
      | none => rw [ht] at h; cases h
      | some ts' =>
        rw [ht] at h
        simp only [Option.map_some'] at h
        rw [Option.some_inj] at h
        subst hc
        subst h
        show (wildSplits ('*' :: t)).any
          (fun p => !(p.1.contains '/') && matchTokens ts' p.2) = true
        have htt := ih ts' ht
        simp [wildSplits, htt]
    · rw [if_neg hc] at h
      by_cases hd : c = '.'
      · rw [if_pos hd] at h
        cases ht : regexTokens t with
        | none => rw [ht] at h; cases h
        | some ts' =>
          rw [ht] at h
          simp only [Option.map_some'] at h
          rw [Option.some_inj] at h
          subst hd
          subst h
          show (!('.' == '\n') && matchTokens ts' t) = true
          simp [ih ts' ht]
      · rw [if_neg hd] at h
        by_cases hm : c ∈ METACHARS
        · rw [if_pos hm] at h; cases h
        · rw [if_neg hm] at h
          cases ht : regexTokens t with
          | none => rw [ht] at h; cases h
          | some ts' =>
            rw [ht] at h
            simp only [Option.map_some'] at h
            rw [Option.some_inj] at h
            subst h
            show (c == c && matchTokens ts' t) = true
            simp [ih ts' ht]

/-- Symmetry of boolean character equality. -/
theorem char_beq_comm (a c : Char) : (a == c) = (c == a) := by
  by_cases he : a = c
  · subst he
    rfl
  · rw [beq_eq_false_iff_ne.mpr he, beq_eq_false_iff_ne.mpr (Ne.symm he)]

/-- Unfold the spec-side segment matcher over the leading character of its
first chunk. -/
theorem matchStars_cons_chunk (c : Char) (h : Str) (r : List Str) (s : Str) :
    matchStars ((c :: h) :: r) s =
      (match s with
       | [] => false
       | a :: s' => a == c && matchStars (h :: r) s') := by
  cases r with
  | nil =>
    cases s with
    | nil => rfl
    | cons a s' => rfl
  | cons r0 r1 =>
    cases s with
    | nil => rfl
    | cons a s' =>
      show ((c == a && h.isPrefixOf s') &&
        (wildSplits (s'.drop h.length)).any
          (fun p => !(p.1.contains '/') && matchStars (r0 :: r1) p.2))
        = (a == c && matchStars (h :: r0 :: r1) s')
      rw [char_beq_comm c a, Bool.and_assoc]
      simp [matchStars]

/-- The spec-side segment matcher on an empty leading chunk. -/
theorem matchStars_nil_chunk (h : Str) (r : List Str) (s : Str) :
    matchStars ([] :: h :: r) s =
      (wildSplits s).any (fun p => !(p.1.contains '/') && matchStars (h :: r) p.2) := by
  simp [matchStars, List.isPrefixOf]

/-- For patterns inside the modelled subset that contain no `'.'`, the
source's regex-token matching coincides with the spec's literal-chunk
segment semantics on every string. -/
theorem matchTokens_eq_matchStars : ∀ (pat : Str) (ts : List RTok),
    regexTokens pat = some ts → (∀ c ∈ pat, c ≠ '.') →
    ∀ s : Str, matchTokens ts s = matchStars (splitOnStar pat) s := by
  intro pat
  induction pat with
  | nil =>
    intro ts h _ s
    simp [regexTokens] at h
    subst h
    show s.isEmpty = matchStars [[]] s
    cases s <;> rfl
  | cons c t ih =>
    intro ts h hd s
    have hd' : ∀ x ∈ t, x ≠ '.' := fun x hx => hd x (List.mem_cons_of_mem _ hx)
    unfold regexTokens at h
    by_cases hc : c = '*'
    · rw [if_pos hc] at h
      cases ht : regexTokens t with
      | none => rw [ht] at h; cases h
      | some ts' =>
        rw [ht] at h
        simp only [Option.map_some'] at h
        rw [Option.some_inj] at h
        subst h
        subst hc
        have hsp : splitOnStar ('*' :: t) = [] :: splitOnStar t := rfl
        rw [hsp]
        cases hrt : splitOnStar t with
        | nil => exact absurd hrt (splitOnStar_ne_nil t)
        | cons ch r =>
          rw [matchStars_nil_chunk]
          have hfun : (fun p : Str × Str => !(p.1.contains '/') && matchTokens ts' p.2)
              = (fun p : Str × Str => !(p.1.contains '/') && matchStars (ch :: r) p.2) := by
            funext p
            rw [ih ts' ht hd' p.2, hrt]
          show (wildSplits s).any (fun p => !(p.1.contains '/') && matchTokens ts' p.2)
            = (wildSplits s).any (fun p => !(p.1.contains '/') && matchStars (ch :: r) p.2)
          rw [hfun]
    · rw [if_neg hc] at h
      have hdc : c ≠ '.' := hd c (List.mem_cons_self c t)
      rw [if_neg hdc] at h
      by_cases hm : c ∈ METACHARS
      · rw [if_pos hm] at h
        cases h
      · rw [if_neg hm] at h
        cases ht : regexTokens t with
        | none => rw [ht] at h; cases h
        | some ts' =>
          rw [ht] at h
          simp only [Option.map_some'] at h
          rw [Option.some_inj] at h
          subst h
          cases hrt : splitOnStar t with
          | nil => exact absurd hrt (splitOnStar_ne_nil t)
          | cons ch r =>
            have hsp : splitOnStar (c :: t) = (c :: ch) :: r := by
              have e : splitOnStar (c :: t)
                  = (if c = '*' then [] :: splitOnStar t
                     else match splitOnStar t with
                          | [] => [[c]]
                          | h :: r => (c :: h) :: r) := rfl
              rw [e, if_neg hc, hrt]
            rw [hsp, matchStars_cons_chunk]
            cases s with
            | nil => rfl
            | cons a s' =>
              show (a == c && matchTokens ts' s') = (a == c && matchStars (ch :: r) s')
              rw [ih ts' ht hd' s', hrt]

/-- The positional-wildcard branch of `matchPattern` is the anchored regex
match for every tokenizable pattern (the exact-equality shortcut at
apiguardian.py line 660 is subsumed, as a pattern always matches itself). -/
theorem matchPattern_midStar_tokens (pat path : Str)
    (hc : pat.contains '*' = true)
    (hs : (chars "/*").isSuffixOf pat = false)
    (hsome : (regexTokens pat).isSome = true) :
    matchPattern pat path = reMatchFull ((regexTokens pat).getD []) path := by
  obtain ⟨ts, ht⟩ := Option.isSome_iff_exists.mp hsome
  rw [ht]
  simp only [Option.getD_some]
  cases hbeq : (path == pat) with
  | true =>
    have hp : path = pat := eq_of_beq hbeq
    subst hp
    have hself := matchTokens_self path ts ht
    unfold matchPattern
    rw [hbeq]
    unfold reMatchFull
    rw [hself]
    simp
  | false =>
    unfold matchPattern
    rw [hbeq]
    simp only [Bool.false_eq_true, if_false, hc, if_true, hs, ht]

/-- For dot-free patterns in the modelled subset, the positional-wildcard
branch equals the spec's segment semantics up to Python's `$` also accepting
a single trailing newline. -/
theorem matchPattern_midStar_plain (pat path : Str)
    (hc : pat.contains '*' = true)
    (hs : (chars "/*").isSuffixOf pat = false)
    (hsome : (regexTokens pat).isSome = true)
    (hd : ∀ c ∈ pat, c ≠ '.') :
    matchPattern pat path =
      (matchStars (splitOnStar pat) path ||
        (match path.getLast? with
         | some c => c == '\n' && matchStars (splitOnStar pat) path.dropLast
         | none => false)) := by
  obtain ⟨ts, ht⟩ := Option.isSome_iff_exists.mp hsome
  rw [matchPattern_midStar_tokens pat path hc hs hsome, ht]
  simp only [Option.getD_some]
  unfold reMatchFull
  rw [matchTokens_eq_matchStars pat ts ht hd path]
  cases hgl : path.getLast? with
  | none => rfl
  | some c =>
    rw [matchTokens_eq_matchStars pat ts ht hd path.dropLast]

/-- For dot-free patterns and paths without a trailing newline, the
positional-wildcard branch is exactly the spec's segment semantics. -/
theorem matchPattern_midStar_plain_noNL (pat path : Str)
    (hc : pat.contains '*' = true)
    (hs : (chars "/*").isSuffixOf pat = false)
    (hsome : (regexTokens pat).isSome = true)
    (hd : ∀ c ∈ pat, c ≠ '.')
    (hnl : path.getLast? ≠ some '\n') :
    matchPattern pat path = matchStars (splitOnStar pat) path := by
  rw [matchPattern_midStar_plain pat path hc hs hsome hd]
  cases hgl : path.getLast? with
  | none => simp
  | some c =>
    have hcnl : c ≠ '\n' := by
      intro he
      subst he
      exact hnl hgl
    show (matchStars (splitOnStar pat) path ||
        (c == '\n' && matchStars (splitOnStar pat) path.dropLast))
      = matchStars (splitOnStar pat) path
    rw [beq_eq_false_iff_ne.mpr hcnl]
    simp

theorem splitFirst_cons_self (s0 : Char) (st rest : Str) :
    splitFirst (s0 :: st) (s0 :: (st ++ rest)) = some ([], rest) := by
  have hp : (s0 :: st).isPrefixOf (s0 :: (st ++ rest)) = true := by
    apply List.isPrefixOf_iff_prefix.mpr
    have h : s0 :: (st ++ rest) = (s0 :: st) ++ rest := by simp
    rw [h]
    exact List.prefix_append _ _
  unfold splitFirst
  rw [hp]
  simp [List.drop_left]

theorem splitFirst_no_sep (s0 : Char) (st pre rest : Str) (h : s0 ∉ pre) :
    splitFirst (s0 :: st) (pre ++ ((s0 :: st) ++ rest)) = some (pre, rest) := by
  induction pre with
  | nil =>
    simpa using splitFirst_cons_self s0 st rest
  | cons c p ih =>
    have hc : s0 ≠ c := fun he => h (he ▸ List.mem_cons_self c p)
    show splitFirst (s0 :: st) (c :: (p ++ ((s0 :: st) ++ rest))) = some (c :: p, rest)
    have hnp : (s0 :: st).isPrefixOf (c :: (p ++ ((s0 :: st) ++ rest))) = false := by
      show (s0 == c && st.isPrefixOf (p ++ ((s0 :: st) ++ rest))) = false
      rw [beq_eq_false_iff_ne.mpr hc]
      rfl
    unfold splitFirst
    rw [hnp]
    simp only [Bool.false_eq_true, if_false]
    rw [ih (fun hm => h (List.mem_cons_of_mem c hm))]
    rfl

theorem clean_endpoint_url_scheme (scheme host rest : Str)
    (hc : ':' ∉ scheme) (hs : '/' ∉ scheme) (hh : '/' ∉ host) :
    clean_endpoint_url (scheme ++ (chars "://" ++ (host ++ (chars "/" ++ rest))))
      = chars "/" ++ rest := by
  have e1 : chars "://" = ':' :: chars "//" := rfl
  have e2 : chars "/" = '/' :: ([] : Str) := rfl
  rw [e1, e2]
  have h1 : splitFirst (':' :: chars "//")
      (scheme ++ ((':' :: chars "//") ++ (host ++ (('/' :: ([] : Str)) ++ rest))))
      = some (scheme, host ++ (('/' :: ([] : Str)) ++ rest)) :=
    splitFirst_no_sep ':' (chars "//") scheme (host ++ (('/' :: ([] : Str)) ++ rest)) hc
  have h2 : splitFirst ('/' :: ([] : Str)) (host ++ (('/' :: ([] : Str)) ++ rest))
      = some (host, rest) :=
    splitFirst_no_sep '/' [] host rest hh
  have hne : (scheme ++ ((':' :: chars "//") ++ (host ++ (('/' :: ([] : Str)) ++ rest)))).isEmpty
      = false := by
    cases scheme <;> rfl
  have hnp : (chars "/").isPrefixOf
      (scheme ++ ((':' :: chars "//") ++ (host ++ (('/' :: ([] : Str)) ++ rest)))) = false := by
    cases scheme with
    | nil => rfl
    | cons c s' =>
      show ('/' == c &&
        List.isPrefixOf []
          (s' ++ ((':' :: chars "//") ++ (host ++ (('/' :: ([] : Str)) ++ rest))))) = false
      rw [beq_eq_false_iff_ne.mpr
        (fun he => hs (by rw [he]; exact List.mem_cons_self c s'))]
      rfl
  unfold clean_endpoint_url
  rw [hne, hnp]
  simp only [Bool.false_eq_true, if_false]
  rw [e1, e2, h1]
  show (match splitFirst (chars "/") (host ++ (('/' :: ([] : Str)) ++ rest)) with
        | some q => '/' :: q.2
        | none => ([] : Str)) = ('/' :: ([] : Str)) ++ rest
  rw [e2, h2]
  rfl

theorem clean_endpoint_url_path (url : Str) (h : (chars "/").isPrefixOf url = true) :
    clean_endpoint_url url = url := by
  have hne : url.isEmpty = false := by
    cases url with
    | nil => simp [chars, List.isPrefixOf] at h
    | cons c t => rfl
  unfold clean_endpoint_url
  rw [hne, h]
  simp

/-! The claims. -/

/-- Claim C2: a method is classified as protected (`is_authorized = YES`) iff
its authorization type is one of CUSTOM, AWS_IAM, COGNITO_USER_POOLS; a method
with authorization type NONE and `apiKeyRequired = true` is classified
unprotected, and a method with authorization type AWS_IAM is classified
protected regardless of the API-key flag. -/
theorem authorization_classification :
    (∀ t : Option Str, _has_proper_authorization t = true ↔
      (t = some (chars "CUSTOM") ∨ t = some (chars "AWS_IAM") ∨
        t = some (chars "COGNITO_USER_POOLS")))
    ∧ (∀ (api_name : Str) (d : MethodAuthRow),
        ((update_report_row api_name d).is_authorized = chars "YES" ↔
          _has_proper_authorization d.authorizationType = true))
    ∧ (∀ (api_name : Str) (d : MethodAuthRow),
        d.authorizationType = some (chars "NONE") → d.apiKeyRequired = true →
          (update_report_row api_name d).is_authorized = chars "NO")
    ∧ (∀ (api_name : Str) (d : MethodAuthRow),
        d.authorizationType = some (chars "AWS_IAM") →
          (update_report_row api_name d).is_authorized = chars "YES") := by
  refine ⟨?_, ?_, ?_, ?_⟩
  · intro t
    cases t <;> simp [_has_proper_authorization, PROPER_AUTH_TYPES]
  · intro api_name d
    cases h : _has_proper_authorization d.authorizationType
    · simp only [update_report_row, h]
      constructor
      · intro he
        exact absurd he (by decide)
      · intro he
        cases he
    · simp [update_report_row, h]
  · intro api_name d h1 _h2
    have h : _has_proper_authorization d.authorizationType = false := by
      rw [h1]
      decide
    simp [update_report_row, h]
  · intro api_name d h1
    have h : _has_proper_authorization d.authorizationType = true := by
      rw [h1]
      decide
    simp [update_report_row, h]

/-- Witness for C2 at a concrete NONE-with-API-key row and a concrete
AWS_IAM row. -/
theorem authorization_classification_witness :
    (update_report_row (chars "A")
      { path := chars "/p", resource_id := chars "r", method := chars "GET",
        authorizationType := some (chars "NONE"), specificAuthType := some (chars "NONE"),
        authorizerId := none, authorizerName := some [], identitySource := none,
        apiKeyRequired := true, endpointUrl := [], whitelist_source := none }).is_authorized
      = chars "NO"
    ∧ (update_report_row (chars "A")
      { path := chars "/p", resource_id := chars "r", method := chars "GET",
        authorizationType := some (chars "AWS_IAM"), specificAuthType := some (chars "AWS_IAM"),
        authorizerId := none, authorizerName := some [], identitySource := none,
        apiKeyRequired := true, endpointUrl := [], whitelist_source := none }).is_authorized
      = chars "YES" :=
  ⟨authorization_classification.2.2.1 _ _ rfl rfl,
   authorization_classification.2.2.2 _ _ rfl⟩

/-- Claim C3: a legacy whitelist entry (a bare pattern string, carrying no
method) matches endpoints of any HTTP method, and the legacy entry with
pattern `/webhook/jumio/*` matches `/webhook/jumio/validate` and
`/webhook/jumio/validate/confirm` but neither `/webhook/jumio/` nor
`/webhook/jumio`. -/
theorem legacy_entry_matches_any_method :
    (∀ (method method' path pat : Str),
      entryMatches method path (WEntry.str pat) = entryMatches method' path (WEntry.str pat))
    ∧ (∀ method : Str,
        is_endpoint_whitelisted (chars "API") method (chars "/webhook/jumio/validate")
          [(chars "API", [WEntry.str (chars "/webhook/jumio/*")])] = true
      ∧ is_endpoint_whitelisted (chars "API") method (chars "/webhook/jumio/validate/confirm")
          [(chars "API", [WEntry.str (chars "/webhook/jumio/*")])] = true
      ∧ is_endpoint_whitelisted (chars "API") method (chars "/webhook/jumio/")
          [(chars "API", [WEntry.str (chars "/webhook/jumio/*")])] = false
      ∧ is_endpoint_whitelisted (chars "API") method (chars "/webhook/jumio")
          [(chars "API", [WEntry.str (chars "/webhook/jumio/*")])] = false) :=
  ⟨fun _ _ _ _ => rfl, fun _ => ⟨rfl, rfl, rfl, rfl⟩⟩

/-- Counterexample to C4 as stated: the program (via Python `re.match`)
accepts `/users/42/profile` followed by a trailing newline against
`/users/*/profile` because `$` also matches before a final newline, and
accepts `/a/x/bXc` against `/a/*/b.c` because the unescaped `'.'` is a live
regex metacharacter — while the claim's "full path matches the pattern with
each `*` treated as `[^/]+` anchored at both ends" (the spec-side
`matchStars` semantics) rejects both. -/
theorem wildcard_regex_counterexample :
    matchPattern (chars "/users/*/profile") (chars "/users/42/profile\n") = true
    ∧ matchStars (splitOnStar (chars "/users/*/profile")) (chars "/users/42/profile\n") = false
    ∧ matchPattern (chars "/a/*/b.c") (chars "/a/x/bXc") = true
    ∧ matchStars (splitOnStar (chars "/a/*/b.c")) (chars "/a/x/bXc") = false := by
  refine ⟨by decide, by decide, by decide, by decide⟩

/-- Claim C4 (amended): the trailing-`/*` rule is as claimed; a pattern with
`*` elsewhere goes through the unescaped anchored regex, so: for every
tokenizable pattern the branch equals the regex-token match; for patterns
additionally free of `'.'` it equals the claimed `[^/]+`-segment semantics
up to Python's `$` also accepting one trailing newline; and restricted
further to paths without a trailing newline it is exactly the claimed
semantics — in particular `{method: GET, path: "/users/*/profile"}` matches
GET `/users/42/profile` but not `/users/42/profile/extra`. -/
theorem wildcard_pattern_semantics_amended :
    (∀ pat path : Str, (chars "/*").isSuffixOf pat = true →
      matchPattern pat path =
        ((pat.dropLast.dropLast ++ chars "/").isPrefixOf path &&
          !(path == pat.dropLast.dropLast ++ chars "/")))
    ∧ (∀ pat path : Str, pat.contains '*' = true →
        (chars "/*").isSuffixOf pat = false →
        (regexTokens pat).isSome = true →
        matchPattern pat path = reMatchFull ((regexTokens pat).getD []) path)
    ∧ (∀ pat path : Str, pat.contains '*' = true →
        (chars "/*").isSuffixOf pat = false →
        (regexTokens pat).isSome = true →
        (∀ c ∈ pat, c ≠ '.') →
        matchPattern pat path =
          (matchStars (splitOnStar pat) path ||
            (match path.getLast? with
             | some c => c == '\n' && matchStars (splitOnStar pat) path.dropLast
             | none => false)))
    ∧ (∀ pat path : Str, pat.contains '*' = true →
        (chars "/*").isSuffixOf pat = false →
        (regexTokens pat).isSome = true →
        (∀ c ∈ pat, c ≠ '.') →
        path.getLast? ≠ some '\n' →
        matchPattern pat path = matchStars (splitOnStar pat) path)
    ∧ entryMatches (chars "GET") (chars "/users/42/profile")
        (WEntry.dict (some (chars "GET")) (some (chars "/users/*/profile"))) = true
    ∧ entryMatches (chars "GET") (chars "/users/42/profile/extra")
        (WEntry.dict (some (chars "GET")) (some (chars "/users/*/profile"))) = false :=
  ⟨matchPattern_slashStar, matchPattern_midStar_tokens, matchPattern_midStar_plain,
   matchPattern_midStar_plain_noNL, by decide, by decide⟩

/-- Witness for the amended C4 at the concrete patterns `/webhook/jumio/*`
and `/users/*/profile`. -/
theorem wildcard_pattern_semantics_amended_witness :
    matchPattern (chars "/webhook/jumio/*") (chars "/webhook/jumio/validate")
      = (((chars "/webhook/jumio/*").dropLast.dropLast ++ chars "/").isPrefixOf
            (chars "/webhook/jumio/validate") &&
         !(chars "/webhook/jumio/validate"
            == (chars "/webhook/jumio/*").dropLast.dropLast ++ chars "/"))
    ∧ matchPattern (chars "/users/*/profile") (chars "/users/42/profile")
      = reMatchFull ((regexTokens (chars "/users/*/profile")).getD [])
          (chars "/users/42/profile")
    ∧ matchPattern (chars "/users/*/profile") (chars "/users/42/profile")
      = matchStars (splitOnStar (chars "/users/*/profile")) (chars "/users/42/profile") :=
  ⟨wildcard_pattern_semantics_amended.1 _ _ (by decide),
   wildcard_pattern_semantics_amended.2.1 _ _ (by decide) (by decide) (by decide),
   wildcard_pattern_semantics_amended.2.2.2.1 _ _ (by decide) (by decide) (by decide)
     (by decide) (by decide)⟩

/-- Claim C5: the whitelist-source classification returns the `+`-joined
names of exactly the matching categories in the fixed order
NO_REQUIERE_SEGURIDAD, SEGURIDAD_EN_MICROSERVICIO, SEGURIDAD_POR_IP, or the
sentinel `"NO"` when none match; an endpoint matching several categories has
all of them reported. -/
theorem whitelist_source_classification :
    (∀ (api_name method path : Str) (w1 w2 w3 : Whitelist),
      get_whitelist_source api_name method path w1 w2 w3
        = whitelistSourceSpec api_name method path w1 w2 w3)
    ∧ get_whitelist_source (chars "A") (chars "GET") (chars "/x")
        [(chars "A", [WEntry.str (chars "/x")])] []
        [(chars "A", [WEntry.str (chars "/x")])]
      = chars "NO_REQUIERE_SEGURIDAD+SEGURIDAD_POR_IP" := by
  refine ⟨?_, by decide⟩
  intro api_name method path w1 w2 w3
  unfold get_whitelist_source whitelistSourceSpec
  cases h1 : is_endpoint_whitelisted api_name method path w1 <;>
    cases h2 : is_endpoint_whitelisted api_name method path w2 <;>
      cases h3 : is_endpoint_whitelisted api_name method path w3 <;>
        simp [h1, h2, h3, List.filter, List.intercalate, List.intersperse]

/-- Claim C6: endpoint-URL cleaning maps `scheme://host/remainder` to
`/remainder` (splitting at the first `://` and the first following `/`),
returns inputs already starting with `/` unchanged, and maps the empty
string to itself. -/
theorem clean_endpoint_url_spec :
    (∀ scheme host rest : Str, ':' ∉ scheme → '/' ∉ scheme → '/' ∉ host →
      clean_endpoint_url (scheme ++ (chars "://" ++ (host ++ (chars "/" ++ rest))))
        = chars "/" ++ rest)
    ∧ (∀ url : Str, (chars "/").isPrefixOf url = true → clean_endpoint_url url = url)
    ∧ clean_endpoint_url (chars "") = chars ""
    ∧ clean_endpoint_url (chars "https://${stageVariables.host}/a/b") = chars "/a/b" :=
  ⟨clean_endpoint_url_scheme, clean_endpoint_url_path, rfl, by decide⟩

/-- Witness for C6 at the spec's example URL and an already-path-only URL. -/
theorem clean_endpoint_url_spec_witness :
    clean_endpoint_url
        (chars "https" ++ (chars "://" ++ (chars "${stageVariables.host}" ++
          (chars "/" ++ chars "a/b"))))
      = chars "/" ++ chars "a/b"
    ∧ clean_endpoint_url (chars "/already/a/path") = chars "/already/a/path" :=
  ⟨clean_endpoint_url_spec.1 _ _ _ (by decide) (by decide) (by decide),
   clean_endpoint_url_spec.2.1 _ (by decide)⟩

/-- Claim C8: the suffix filter keeps exactly the APIs whose name ends in
neither `-DEV` nor `-CI`, preserves relative order and leaves surviving
records unchanged (it yields a sublist), and is idempotent. -/
theorem filter_apis_by_suffix_exact :
    (∀ (apis : List Api) (a : Api),
      a ∈ filter_apis_by_suffix apis ↔
        a ∈ apis ∧ (chars "-DEV").isSuffixOf a.name = false ∧
          (chars "-CI").isSuffixOf a.name = false)
    ∧ (∀ apis : List Api, List.Sublist (filter_apis_by_suffix apis) apis)
    ∧ (∀ apis : List Api,
        filter_apis_by_suffix (filter_apis_by_suffix apis) = filter_apis_by_suffix apis) := by
  refine ⟨?_, ?_, ?_⟩
  · intro apis a
    simp [filter_apis_by_suffix, EXCLUDED_API_SUFFIXES, List.mem_filter]
  · intro apis
    exact List.filter_sublist apis
  · intro apis
    simp [filter_apis_by_suffix, List.filter_filter]

/-- Claim C10: passing an explicitly empty exclusion set to `filter_apis` or
an explicitly empty excluded-method set to `filter_methods` behaves exactly
as passing the default (`None`): the empty set is replaced by the default
set, so filtering cannot be disabled this way. -/
theorem empty_exclusion_set_uses_defaults :
    (∀ apis : List Api, ApiFilter.filter_apis apis (some []) = ApiFilter.filter_apis apis none)
    ∧ (∀ (α : Type) (methods : List (Str × α)),
        ApiFilter.filter_methods methods (some []) = ApiFilter.filter_methods methods none) :=
  ⟨fun _ => rfl, fun _ _ => rfl⟩

/-- Claim C7: a failed resource listing for one API terminates that API's
scan with the fixed non-empty error message and empty finding lists, while
the coordinator maps every API of its input list to exactly one result, each
computed independently of the other APIs. -/
theorem partial_failure_isolation :
    (∀ (w : World) (apis : List Api) (report : Bool) (w1 w2 w3 : Whitelist),
      analyze_apis_sequentially w apis report w1 w2 w3
        = apis.map (fun api => (check_api_security w api.id api.name report w1 w2 w3).1))
    ∧ (∀ (w : World) (apis : List Api) (report : Bool) (w1 w2 w3 : Whitelist),
      (analyze_apis_sequentially w apis report w1 w2 w3).length = apis.length)
    ∧ (∀ (w : World) (api_id api_name : Str) (report : Bool) (w1 w2 w3 : Whitelist),
        w.getResources api_id = none →
        (check_api_security w api_id api_name report w1 w2 w3).1.error
            = some RESOURCES_ERROR_MSG
        ∧ (check_api_security w api_id api_name report w1 w2 w3).1.resources_with_auth = []
        ∧ (check_api_security w api_id api_name report w1 w2 w3).1.resources_without_auth = []
        ∧ RESOURCES_ERROR_MSG ≠ []) := by
  refine ⟨fun _ _ _ _ _ _ => rfl, ?_, ?_⟩
  · intro w apis report w1 w2 w3
    simp [analyze_apis_sequentially]
  · intro w api_id api_name report w1 w2 w3 h
    unfold check_api_security
    rw [h]
    exact ⟨rfl, rfl, rfl, by decide⟩

/-- A three-API world whose second API fails its resource listing. -/
def W3 : World :=
  { getResources := fun api_id => if api_id = chars "b1" then none else some []
    getResourceMethods := fun _ _ => none
    getMethod := fun _ _ _ => none
    getAuthorizerDetails := fun _ _ => none
    getIntegrationDetails := fun _ _ _ => none }

/-- Witness for C7: three APIs, the second failing resource listing, give
three results and the failed one carries the error with empty lists. -/
theorem partial_failure_isolation_witness :
    (analyze_apis_sequentially W3
        [{ id := chars "a1", name := chars "A" }, { id := chars "b1", name := chars "B" },
         { id := chars "c1", name := chars "C" }] true [] [] []).length = 3
    ∧ (check_api_security W3 (chars "b1") (chars "B") true [] [] []).1.error
        = some RESOURCES_ERROR_MSG
    ∧ (check_api_security W3 (chars "b1") (chars "B") true [] [] []).1.resources_with_auth = []
    ∧ (check_api_security W3 (chars "b1") (chars "B") true [] [] []).1.resources_without_auth
        = [] :=
  ⟨partial_failure_isolation.2.1 W3 _ true [] [] [],
   (partial_failure_isolation.2.2 W3 (chars "b1") (chars "B") true [] [] [] (by decide)).1,
   (partial_failure_isolation.2.2 W3 (chars "b1") (chars "B") true [] [] [] (by decide)).2.1,
   (partial_failure_isolation.2.2 W3 (chars "b1") (chars "B") true [] [] [] (by decide)).2.2.1⟩

/-- A one-resource world: one GET method with a CUSTOM authorizer `X` whose
detail fetch always fails. -/
def R0 : Resource := { id := chars "r", path := chars "/p", resourceMethods := [chars "GET"] }

/-- World for the C1 counterexample: the authorizer-detail fetch for `X`
fails, so the cache build leaves `X` uncached and the consuming method
triggers a second fetch. -/
def W0 : World :=
  { getResources := fun api_id => if api_id = chars "a" then some [R0] else none
    getResourceMethods := fun api_id rid =>
      if api_id = chars "a" ∧ rid = chars "r" then some [chars "GET"] else none
    getMethod := fun api_id rid m =>
      if api_id = chars "a" ∧ rid = chars "r" ∧ m = chars "GET" then
        some { authorizationType := some (chars "CUSTOM"),
               authorizerId := some (chars "X"), apiKeyRequired := false }
      else none
    getAuthorizerDetails := fun _ _ => none
    getIntegrationDetails := fun _ _ _ => none }

/-- Counterexample to C1 as stated: in `W0` the API references exactly one
distinct claims-bearing authorizer id, yet the scan performs two remote
authorizer-detail fetches — the build fetch plus the consumer's cache-miss
fallback fetch in `get_method_authorization`. -/
theorem authorizer_cache_miss_refetch_counterexample :
    W0.getResources (chars "a") = some [R0]
    ∧ (unique_authorizer_ids W0 (chars "a") [R0]).length = 1
    ∧ scanAuthorizerFetches W0 (chars "a") (chars "A") true [] [] [] = 2
    ∧ scanAuthorizerFetches W0 (chars "a") (chars "A") true [] [] []
        ≠ (unique_authorizer_ids W0 (chars "a") [R0]).length := by
  refine ⟨by decide, by decide, by decide, by decide⟩

/-- Claim C1 (amended): the cache build performs exactly one remote
authorizer-detail fetch per distinct claims-bearing authorizer id, but a
consumer hitting a cache miss after the build falls back to a direct fetch;
when every method seen by the per-resource scan also appears in the listing
used for discovery and every collected id's detail fetch succeeds, the
scan-total number of authorizer-detail fetches equals the number of distinct
authorizer ids. -/
theorem authorizer_fetches_amended (w : World) (api_id api_name : Str) (report : Bool)
    (w1 w2 w3 : Whitelist) (resources : List Resource)
    (hres : w.getResources api_id = some resources)
    (hlist : ∀ r ∈ resources, ∀ m ∈ (w.getResourceMethods api_id r.id).getD [],
        m ≠ chars "OPTIONS" → m ∈ r.resourceMethods)
    (hdet : ∀ aid ∈ unique_authorizer_ids w api_id resources,
        (w.getAuthorizerDetails api_id aid).isSome = true) :
    scanAuthorizerFetches w api_id api_name report w1 w2 w3
      = (unique_authorizer_ids w api_id resources).length := by
  unfold scanAuthorizerFetches check_api_security
  rw [hres]
  by_cases hlen : resources.length = 0
  · have : resources = [] := List.length_eq_zero.mp hlen
    subst this
    rfl
  · show (if resources.length = 0 then
        (({ api_id := api_id, api_name := api_name, total_resources := 0
            resources_without_auth := [], resources_with_auth := []
            methods_filtered := 0, error := none } : ScanResult), ([] : List ReportRow), 0)
      else
        (({ api_id := api_id, api_name := api_name, total_resources := resources.length
            resources_without_auth := (resources.foldl (apiScanStep w api_id report api_name
              (build_authorizer_cache w api_id resources).1 w1 w2 w3)
              { resources_with_auth := [], resources_without_auth := []
                methods_filtered := 0, reportRows := [], authFetches := 0 }).resources_without_auth
            resources_with_auth := (resources.foldl (apiScanStep w api_id report api_name
              (build_authorizer_cache w api_id resources).1 w1 w2 w3)
              { resources_with_auth := [], resources_without_auth := []
                methods_filtered := 0, reportRows := [], authFetches := 0 }).resources_with_auth
            methods_filtered := (resources.foldl (apiScanStep w api_id report api_name
              (build_authorizer_cache w api_id resources).1 w1 w2 w3)
              { resources_with_auth := [], resources_without_auth := []
                methods_filtered := 0, reportRows := [], authFetches := 0 }).methods_filtered
            error := none } : ScanResult),
         (resources.foldl (apiScanStep w api_id report api_name
            (build_authorizer_cache w api_id resources).1 w1 w2 w3)
            { resources_with_auth := [], resources_without_auth := []
              methods_filtered := 0, reportRows := [], authFetches := 0 }).reportRows,
         (build_authorizer_cache w api_id resources).2 +
           (resources.foldl (apiScanStep w api_id report api_name
              (build_authorizer_cache w api_id resources).1 w1 w2 w3)
              { resources_with_auth := [], resources_without_auth := []
                methods_filtered := 0, reportRows := [], authFetches := 0 }).authFetches)).2.2
      = (unique_authorizer_ids w api_id resources).length
    rw [if_neg hlen]
    have hzero : ∀ r ∈ resources,
        (analyze_resource_methods w api_id r.id r.path report (some api_name)
          (build_authorizer_cache w api_id resources).1 w1 w2 w3).authFetches = 0 := by
      intro r hr
      apply analyze_authFetches_zero
      intro m hm
      have hmem := (List.mem_filter.mp hm).1
      have hnex := (List.mem_filter.mp hm).2
      have hopt : m ≠ chars "OPTIONS" := by
        simp [EXCLUDED_HTTP_METHODS] at hnex
        exact hnex
      have hrm : m ∈ r.resourceMethods := hlist r hr m hmem hopt
      apply gma_snd_zero
      intro data hget hcb
      have hcid : data.authorizerId.getD [] ∈ collect_authorizer_ids_from_resource w api_id r :=
        mem_collect_ids hrm hopt hget hcb
      have huid : data.authorizerId.getD [] ∈ unique_authorizer_ids w api_id resources :=
        mem_unique_ids hr hcid
      obtain ⟨d, hd⟩ := Option.isSome_iff_exists.mp (hdet _ huid)
      have hcc : cacheContains (build_authorizer_cache w api_id resources).1
          (data.authorizerId.getD []) = true := by
        show cacheContains ((unique_authorizer_ids w api_id resources).filterMap
          (fun aid => (w.getAuthorizerDetails api_id aid).map (fun d => (aid, d))))
          (data.authorizerId.getD []) = true
        exact cacheContains_build huid hd
      rw [Bool.and_eq_true]
      refine ⟨?_, hcc⟩
      rw [Bool.not_eq_true']
      exact cache_ne_nil_of_contains hcc
    rw [foldl_apiScanStep_authFetches w api_id report api_name
      (build_authorizer_cache w api_id resources).1 w1 w2 w3 resources _ hzero]
    rfl

/-- A successful authorizer detail used by the C1 witness world. -/
def D1 : AuthorizerDetail :=
  { name := some (chars "adminAuth"), type := some (chars "TOKEN"),
    identitySource := some (chars "method.request.header.Authorization"),
    identityValidationExpression := none, authorizerUri := none,
    authorizerCredentials := none, authorizerResultTtlInSeconds := some 300 }

/-- Same world as `W0` except that the detail fetch for `X` succeeds. -/
def W1 : World :=
  { W0 with getAuthorizerDetails := fun api_id aid =>
      if api_id = chars "a" ∧ aid = chars "X" then some D1 else none }

/-- Witness for the amended C1: with a successful detail fetch the scan
performs exactly one fetch for the one distinct authorizer id. -/
theorem authorizer_fetches_amended_witness :
    scanAuthorizerFetches W1 (chars "a") (chars "A") true [] [] []
      = (unique_authorizer_ids W1 (chars "a") [R0]).length :=
  authorizer_fetches_amended W1 (chars "a") (chars "A") true [] [] [] [R0]
    (by decide) (by decide) (by decide)

theorem analyzeMethodStep_methods_map (w : World) (api_id rid path : Str) (report : Bool)
    (api_name : Option Str) (cache : Cache) (w1 w2 w3 : Whitelist)
    (acc : ResourceAnalysis) (m : Str) :
    ((analyzeMethodStep w api_id rid path report api_name cache w1 w2 w3 acc m).methods).map
        (fun r => r.method)
      = (acc.methods.map (fun r => r.method)) ++
        (if (get_method_authorization w api_id rid m cache).1.isSome then [m] else []) := by
  unfold analyzeMethodStep
  cases hg : get_method_authorization w api_id rid m cache with
  | mk o n =>
    cases o with
    | none => simp [hg]
    | some info =>
      simp only [hg, Option.isSome_some, if_true]
      split <;> simp

theorem analyzeMethodStep_reportRows_map (w : World) (api_id rid path : Str) (report : Bool)
    (api_name : Option Str) (cache : Cache) (w1 w2 w3 : Whitelist)
    (acc : ResourceAnalysis) (m : Str) :
    ((analyzeMethodStep w api_id rid path report api_name cache w1 w2 w3 acc m).reportRows).map
        (fun r => r.method)
      = (acc.reportRows.map (fun r => r.method)) ++
        (if ((report && truthyStr api_name) &&
              (get_method_authorization w api_id rid m cache).1.isSome) = true
         then [m] else []) := by
  unfold analyzeMethodStep
  cases hg : get_method_authorization w api_id rid m cache with
  | mk o n =>
    cases o with
    | none => simp [hg]
    | some info =>
      simp only [hg, Option.isSome_some, Bool.and_true]
      split
      · simp_all [update_report_row]
      · simp_all

theorem analyzeMethodStep_methods_filtered (w : World) (api_id rid path : Str) (report : Bool)
    (api_name : Option Str) (cache : Cache) (w1 w2 w3 : Whitelist)
    (acc : ResourceAnalysis) (m : Str) :
    (analyzeMethodStep w api_id rid path report api_name cache w1 w2 w3 acc m).methods_filtered
      = acc.methods_filtered := by
  unfold analyzeMethodStep
  cases hg : get_method_authorization w api_id rid m cache with
  | mk o n =>
    cases o with
    | none => rfl
    | some info =>
      simp only []
      split <;> rfl

theorem foldl_analyzeMethodStep_methods_map (w : World) (api_id rid path : Str)
    (report : Bool) (api_name : Option Str) (cache : Cache) (w1 w2 w3 : Whitelist)
    (l : List Str) (acc : ResourceAnalysis) :
    (((l.foldl (analyzeMethodStep w api_id rid path report api_name cache w1 w2 w3) acc)).methods).map
        (fun r => r.method)
      = (acc.methods.map (fun r => r.method)) ++
        l.filter (fun m => (get_method_authorization w api_id rid m cache).1.isSome) := by
  induction l generalizing acc with
  | nil => simp
  | cons m t ih =>
    rw [List.foldl_cons, ih, analyzeMethodStep_methods_map]
    cases hc : (get_method_authorization w api_id rid m cache).1.isSome <;>
      simp [List.filter_cons, hc]

theorem foldl_analyzeMethodStep_reportRows_map (w : World) (api_id rid path : Str)
    (report : Bool) (api_name : Option Str) (cache : Cache) (w1 w2 w3 : Whitelist)
    (l : List Str) (acc : ResourceAnalysis) :
    (((l.foldl (analyzeMethodStep w api_id rid path report api_name cache w1 w2 w3) acc)).reportRows).map
        (fun r => r.method)
      = (acc.reportRows.map (fun r => r.method)) ++
        l.filter (fun m => (report && truthyStr api_name) &&
          (get_method_authorization w api_id rid m cache).1.isSome) := by
  induction l generalizing acc with
  | nil => simp
  | cons m t ih =>
    rw [List.foldl_cons, ih, analyzeMethodStep_reportRows_map]
    cases hc : ((report && truthyStr api_name) &&
        (get_method_authorization w api_id rid m cache).1.isSome) <;>
      simp [List.filter_cons, hc]

theorem foldl_analyzeMethodStep_methods_filtered (w : World) (api_id rid path : Str)
    (report : Bool) (api_name : Option Str) (cache : Cache) (w1 w2 w3 : Whitelist)
    (l : List Str) (acc : ResourceAnalysis) :
    ((l.foldl (analyzeMethodStep w api_id rid path report api_name cache w1 w2 w3) acc)).methods_filtered
      = acc.methods_filtered := by
  induction l generalizing acc with
  | nil => rfl
  | cons m t ih => rw [List.foldl_cons, ih, analyzeMethodStep_methods_filtered]

theorem analyze_methods_map (w : World) (api_id rid path : Str) (report : Bool)
    (api_name : Option Str) (cache : Cache) (w1 w2 w3 : Whitelist) (ms : List Str)
    (hms : w.getResourceMethods api_id rid = some ms) :
    ((analyze_resource_methods w api_id rid path report api_name cache w1 w2 w3).methods).map
        (fun r => r.method)
      = (filter_options_methods ms).filter
          (fun m => (get_method_authorization w api_id rid m cache).1.isSome) := by
  unfold analyze_resource_methods
  rw [hms]
  show ((if ms.isEmpty = true then
          ({ methods := [], methods_filtered := 0, reportRows := [], authFetches := 0 } : ResourceAnalysis)
        else
          List.foldl (analyzeMethodStep w api_id rid path report api_name cache w1 w2 w3)
            { methods := [], methods_filtered := ms.length - (filter_options_methods ms).length,
              reportRows := [], authFetches := 0 }
            (filter_options_methods ms)).methods).map (fun r => r.method)
      = (filter_options_methods ms).filter
          (fun m => (get_method_authorization w api_id rid m cache).1.isSome)
  by_cases he : ms.isEmpty = true
  · rw [if_pos he]
    have : ms = [] := List.isEmpty_iff.mp he
    subst this
    rfl
  · rw [if_neg he]
    rw [foldl_analyzeMethodStep_methods_map]
    rfl

theorem analyze_reportRows_map (w : World) (api_id rid path : Str) (report : Bool)
    (api_name : Option Str) (cache : Cache) (w1 w2 w3 : Whitelist) (ms : List Str)
    (hms : w.getResourceMethods api_id rid = some ms) :
    ((analyze_resource_methods w api_id rid path report api_name cache w1 w2 w3).reportRows).map
        (fun r => r.method)
      = (filter_options_methods ms).filter
          (fun m => (report && truthyStr api_name) &&
            (get_method_authorization w api_id rid m cache).1.isSome) := by
  unfold analyze_resource_methods
  rw [hms]
  show ((if ms.isEmpty = true then
          ({ methods := [], methods_filtered := 0, reportRows := [], authFetches := 0 } : ResourceAnalysis)
        else
          List.foldl (analyzeMethodStep w api_id rid path report api_name cache w1 w2 w3)
            { methods := [], methods_filtered := ms.length - (filter_options_methods ms).length,
              reportRows := [], authFetches := 0 }
            (filter_options_methods ms)).reportRows).map (fun r => r.method)
      = (filter_options_methods ms).filter
          (fun m => (report && truthyStr api_name) &&
            (get_method_authorization w api_id rid m cache).1.isSome)
  by_cases he : ms.isEmpty = true
  · rw [if_pos he]
    have : ms = [] := List.isEmpty_iff.mp he
    subst this
    rfl
  · rw [if_neg he]
    rw [foldl_analyzeMethodStep_reportRows_map]
    rfl

theorem analyze_methods_filtered_eq (w : World) (api_id rid path : Str) (report : Bool)
    (api_name : Option Str) (cache : Cache) (w1 w2 w3 : Whitelist) (ms : List Str)
    (hms : w.getResourceMethods api_id rid = some ms) :
    (analyze_resource_methods w api_id rid path report api_name cache w1 w2 w3).methods_filtered
      = ms.length - (filter_options_methods ms).length := by
  unfold analyze_resource_methods
  rw [hms]
  show (if ms.isEmpty = true then
          ({ methods := [], methods_filtered := 0, reportRows := [], authFetches := 0 } : ResourceAnalysis)
        else
          List.foldl (analyzeMethodStep w api_id rid path report api_name cache w1 w2 w3)
            { methods := [], methods_filtered := ms.length - (filter_options_methods ms).length,
              reportRows := [], authFetches := 0 }
            (filter_options_methods ms)).methods_filtered
      = ms.length - (filter_options_methods ms).length
  by_cases he : ms.isEmpty = true
  · rw [if_pos he]
    have : ms = [] := List.isEmpty_iff.mp he
    subst this
    rfl
  · rw [if_neg he]
    rw [foldl_analyzeMethodStep_methods_filtered]

/-- Claim C9: a method whose per-method authorization lookup fails is
silently skipped — the analyzed-method list is exactly the non-OPTIONS
methods with a successful lookup (so no finding and no report row carries
the failing method, and it is not counted), while the OPTIONS-filtered count
is unaffected and the remaining methods are still analyzed. -/
theorem failed_method_lookup_skipped :
    ∀ (w : World) (api_id rid path : Str) (report : Bool) (api_name : Option Str)
      (cache : Cache) (w1 w2 w3 : Whitelist) (ms : List Str),
      w.getResourceMethods api_id rid = some ms →
      (((analyze_resource_methods w api_id rid path report api_name cache w1 w2 w3).methods).map
          (fun r => r.method)
        = (filter_options_methods ms).filter
            (fun m => (get_method_authorization w api_id rid m cache).1.isSome))
      ∧ ((analyze_resource_methods w api_id rid path report api_name cache w1 w2 w3).methods_filtered
          = ms.length - (filter_options_methods ms).length)
      ∧ (∀ m : Str, (get_method_authorization w api_id rid m cache).1 = none →
          (∀ row ∈ (analyze_resource_methods w api_id rid path report api_name cache w1 w2 w3).methods,
            row.method ≠ m)
          ∧ (∀ row ∈ (analyze_resource_methods w api_id rid path report api_name cache w1 w2 w3).reportRows,
            row.method ≠ m)) := by
  intro w api_id rid path report api_name cache w1 w2 w3 ms hms
  refine ⟨analyze_methods_map w api_id rid path report api_name cache w1 w2 w3 ms hms,
    analyze_methods_filtered_eq w api_id rid path report api_name cache w1 w2 w3 ms hms, ?_⟩
  intro m hfail
  constructor
  · intro row hrow heq
    have hmem : m ∈ ((analyze_resource_methods w api_id rid path report api_name cache
        w1 w2 w3).methods).map (fun r => r.method) := by
      rw [← heq]
      exact List.mem_map_of_mem _ hrow
    rw [analyze_methods_map w api_id rid path report api_name cache w1 w2 w3 ms hms] at hmem
    have hp := List.of_mem_filter hmem
    rw [hfail] at hp
    simp at hp
  · intro row hrow heq
    have hmem : m ∈ ((analyze_resource_methods w api_id rid path report api_name cache
        w1 w2 w3).reportRows).map (fun r => r.method) := by
      rw [← heq]
      exact List.mem_map_of_mem _ hrow
    rw [analyze_reportRows_map w api_id rid path report api_name cache w1 w2 w3 ms hms] at hmem
    have hp := List.of_mem_filter hmem
    rw [Bool.and_eq_true] at hp
    have hp2 := hp.2
    rw [hfail] at hp2
    simp at hp2

/-- World for the C9 witness: resource `r` lists GET, POST and OPTIONS, and
only GET's method lookup succeeds. -/
def W9 : World :=
  { getResources := fun _ => none
    getResourceMethods := fun api_id rid =>
      if api_id = chars "a" ∧ rid = chars "r" then
        some [chars "GET", chars "POST", chars "OPTIONS"]
      else none
    getMethod := fun api_id rid m =>
      if api_id = chars "a" ∧ rid = chars "r" ∧ m = chars "GET" then
        some { authorizationType := some (chars "NONE"), authorizerId := none,
               apiKeyRequired := false }
      else none
    getAuthorizerDetails := fun _ _ => none
    getIntegrationDetails := fun _ _ _ => none }

/-- Witness for C9: POST's failed lookup produces no row while GET is still
analyzed and OPTIONS is still counted as filtered. -/
theorem failed_method_lookup_skipped_witness :
    (((analyze_resource_methods W9 (chars "a") (chars "r") (chars "/p") true
          (some (chars "A")) [] [] [] []).methods).map (fun r => r.method)
      = (filter_options_methods [chars "GET", chars "POST", chars "OPTIONS"]).filter
          (fun m => (get_method_authorization W9 (chars "a") (chars "r") m []).1.isSome))
    ∧ (∀ row ∈ (analyze_resource_methods W9 (chars "a") (chars "r") (chars "/p") true
          (some (chars "A")) [] [] [] []).methods, row.method ≠ chars "POST")
    ∧ (analyze_resource_methods W9 (chars "a") (chars "r") (chars "/p") true
          (some (chars "A")) [] [] [] []).methods_filtered
        = ([chars "GET", chars "POST", chars "OPTIONS"] : List Str).length
          - (filter_options_methods [chars "GET", chars "POST", chars "OPTIONS"]).length :=
  ⟨(failed_method_lookup_skipped W9 (chars "a") (chars "r") (chars "/p") true
      (some (chars "A")) [] [] [] [] [chars "GET", chars "POST", chars "OPTIONS"] (by decide)).1,
   ((failed_method_lookup_skipped W9 (chars "a") (chars "r") (chars "/p") true
      (some (chars "A")) [] [] [] [] [chars "GET", chars "POST", chars "OPTIONS"] (by decide)).2.2 (chars "POST") (by decide)).1,
   (failed_method_lookup_skipped W9 (chars "a") (chars "r") (chars "/p") true
      (some (chars "A")) [] [] [] [] [chars "GET", chars "POST", chars "OPTIONS"] (by decide)).2.1⟩
